import Mathlib

/-!
Verification development for the Finance daily-report pipeline.

Shallow embedding of:
- src/parser.py      (parse_daily_report, FIELD_MAP)
- src/validator.py   (InputValidator.validate_date / validate_numbers / validate_data)
- src/excel_handler.py (find_next_row, check_duplicate_date, generate_formulas,
                        _get_style_for_column, STYLES)

Python strings are modelled as Lean String / List Char; Python ints as Int,
Python floats as exact rationals (the float values arising here are short
decimal literals, and every property proved below depends only on their sign,
ordering against 10^6, and equality of syntactically identical tokens, all of
which the exact-rational model shares with IEEE doubles for these magnitudes).
Python None is modelled with Option.
-/

namespace Finance

/-- Errors raised by parse_daily_report (src/parser.py).
The source raises ParseError with one of two messages; the two constructors
stand for those two raise sites. -/
inductive ParseErr where
  | emptyInput
  | missingDate
deriving DecidableEq

/-- Internal field identifiers: the values of FIELD_MAP in src/parser.py. -/
inductive FieldKey where
  | meituan
  | stored_card_redemption
  | douyin
  | coaching_redemption
  | wechat
  | alipay
  | water
  | gatorade
  | other
  | trial_class
  | stored_card_recharge
  | private_coaching_recharge
  | monthly_card
deriving DecidableEq

/-- FIELD_MAP from src/parser.py, in declaration order (Python dicts preserve
insertion order, and the parser iterates FIELD_MAP.items() in that order). -/
def FIELD_MAP : List (String × FieldKey) :=
  [("大众美团", .meituan),
   ("储值卡核销", .stored_card_redemption),
   ("抖音", .douyin),
   ("教练课核销", .coaching_redemption),
   ("微信", .wechat),
   ("支付宝", .alipay),
   ("水", .water),
   ("佳得乐", .gatorade),
   ("其他", .other),
   ("体验课", .trial_class),
   ("储值卡充值", .stored_card_recharge),
   ("私教课充值", .private_coaching_recharge),
   ("月卡", .monthly_card)]

/-- The internal key name strings, as used in validator error messages. -/
def keyName : FieldKey → String
  | .meituan => "meituan"
  | .stored_card_redemption => "stored_card_redemption"
  | .douyin => "douyin"
  | .coaching_redemption => "coaching_redemption"
  | .wechat => "wechat"
  | .alipay => "alipay"
  | .water => "water"
  | .gatorade => "gatorade"
  | .other => "other"
  | .trial_class => "trial_class"
  | .stored_card_recharge => "stored_card_recharge"
  | .private_coaching_recharge => "private_coaching_recharge"
  | .monthly_card => "monthly_card"

/-- A Python numeric value: int or float.  Floats are modelled by the exact
rational value of their decimal token. -/
inductive PyNum where
  | intV (n : Int)
  | floatV (q : ℚ)
deriving DecidableEq

/-- Numeric value of a PyNum, used for the comparisons value < 0 and
value > 1000000 in src/validator.py. -/
def PyNum.toRat : PyNum → ℚ
  | .intV n => (n : ℚ)
  | .floatV q => q

/-- ASCII digit test, modelling the regex class \d on the inputs in scope. -/
def isAsciiDigit (c : Char) : Bool :=
  decide ('0' ≤ c) && decide (c ≤ '9')

/-- Whitespace as stripped by Python str.strip() and matched by the regex
class \s (the whitespace code points that can occur in this domain). -/
def isPySpace (c : Char) : Bool :=
  c = ' ' || c = '\t' || c = '\n' || c = '\x0d' || c = '\x0b' || c = '\x0c' ||
  c = ' ' || c = '　'

/-- The separator class [\s:：] of the field pattern in src/parser.py. -/
def isSep (c : Char) : Bool :=
  isPySpace c || c = ':' || c = '：'

/-- Value of a digit string, as computed by Python int() on a digit run. -/
def digitsToNat (ds : List Char) : Nat :=
  ds.foldl (fun a c => 10 * a + (c.toNat - 48)) 0

/-- Python str.strip(): drop leading and trailing whitespace. -/
def pyStrip (l : List Char) : List Char :=
  ((l.dropWhile isPySpace).reverse.dropWhile isPySpace).reverse

/-- Python text.split with separator given by one newline character:
splitLines (a ++ newline ++ b) = splitLines a ++ splitLines b, and the empty
text splits into one empty line. -/
def splitLines : List Char → List (List Char)
  | [] => [[]]
  | c :: cs =>
    match splitLines cs with
    | [] => [[c]]
    | l :: ls => if c = '\n' then [] :: l :: ls else (c :: l) :: ls

/-- The lines of a text, as produced by text.split in src/parser.py. -/
def textLines (t : String) : List (List Char) :=
  splitLines t.data

/-- Suffix of the line just after the leftmost occurrence of pat, or none if
pat does not occur.  This is where re.search leaves off after matching the
literal label part of the field pattern. -/
def findAfter (pat : List Char) : List Char → Option (List Char)
  | [] => if pat.isEmpty then some [] else none
  | c :: cs =>
    if pat.isPrefixOf (c :: cs) then some ((c :: cs).drop pat.length)
    else findAfter pat cs

/-- The optional numeric token of the field pattern: a digit run, optionally
followed by a dot and a further digit run.  A token containing a dot is
parsed as a float, otherwise as an int (src/parser.py lines 90-96). -/
def numToken (l : List Char) : Option PyNum :=
  let ds := l.takeWhile isAsciiDigit
  if ds.isEmpty then none
  else
    match l.dropWhile isAsciiDigit with
    | '.' :: r2 =>
      let fs := r2.takeWhile isAsciiDigit
      some (.floatV ((digitsToNat ds : ℚ) + (digitsToNat fs : ℚ) / (10 ^ fs.length : ℚ)))
    | _ => some (.intV (digitsToNat ds : Int))

/-- Per-line field matching (src/parser.py lines 83-99): try each FIELD_MAP
entry in declaration order; the pattern label[\s:：]*(digits(.digits?)?)?
matches exactly when the label occurs in the line, and the captured token is
read after the leftmost occurrence, past any separators.  The first matching
label wins and the loop breaks. -/
def lineMatch (line : List Char) : Option (FieldKey × Option PyNum) :=
  FIELD_MAP.findSome? fun p =>
    match findAfter p.1.data line with
    | some rest => some (p.2, numToken (rest.dropWhile isSep))
    | none => none

/-- The parsed-record shape: the date string plus one optional numeric value
per internal field key (a Python dict with exactly these keys). -/
structure ParsedData where
  date : String
  fields : FieldKey → Option PyNum

/-- One iteration of the line loop in parse_daily_report: strip the line and,
if some label matches, overwrite that field with the captured value (null when
the label has no trailing numeric token). -/
def stepLine (r : ParsedData) (line : List Char) : ParsedData :=
  match lineMatch (pyStrip line) with
  | some (k, v) => { r with fields := Function.update r.fields k v }
  | none => r

/-- Attempt of the date pattern (digits)月(digits)日销售日报 anchored at the
start of l, returning the two digit-run values. -/
def dateAt (l : List Char) : Option (Nat × Nat) :=
  let ds := l.takeWhile isAsciiDigit
  if ds.isEmpty then none
  else
    match l.dropWhile isAsciiDigit with
    | '月' :: r1 =>
      let ds2 := r1.takeWhile isAsciiDigit
      if ds2.isEmpty then none
      else if "日销售日报".data.isPrefixOf (r1.dropWhile isAsciiDigit) then
        some (digitsToNat ds, digitsToNat ds2)
      else none
    | _ => none

/-- re.search of the date pattern over the whole text: leftmost match wins. -/
def findDate : List Char → Option (Nat × Nat)
  | [] => none
  | c :: cs =>
    match dateAt (c :: cs) with
    | some md => some md
    | none => findDate cs

/-- Python format spec 02d: decimal rendering zero-padded to width two. -/
def pad2 (n : Nat) : String :=
  if n < 10 then "0" ++ toString n else toString n

/-- parse_daily_report from src/parser.py: reject empty (after strip) text,
find the date header, render the date as MM-DD, then fold the field-matching
loop over the lines of the text. -/
def parse_daily_report (text : String) : Except ParseErr ParsedData :=
  if pyStrip text.data = [] then .error .emptyInput
  else
    match findDate text.data with
    | none => .error .missingDate
    | some (m, d) =>
      .ok ((textLines text).foldl stepLine
            { date := pad2 m ++ "-" ++ pad2 d, fields := fun _ => none })

/-- Date of a successful parse, for stating concrete evaluations. -/
def parseDate (t : String) : Option String :=
  match parse_daily_report t with
  | .ok r => some r.date
  | .error _ => none

/-- Field value of a successful parse, for stating concrete evaluations. -/
def parseField (t : String) (k : FieldKey) : Option (Option PyNum) :=
  match parse_daily_report t with
  | .ok r => some (r.fields k)
  | .error _ => none

/-- The value a given line writes into field k, if it writes one. -/
def lineKeyVal (k : FieldKey) (line : List Char) : Option (Option PyNum) :=
  match lineMatch (pyStrip line) with
  | some (k', v) => if k' = k then some v else none
  | none => none

/-! ### Validator (src/validator.py) -/

/-- The numeric_fields list of InputValidator.validate_numbers, in source
order. -/
def numericFields : List FieldKey :=
  [.meituan, .stored_card_redemption, .douyin, .coaching_redemption,
   .wechat, .alipay, .water, .gatorade, .other, .trial_class,
   .stored_card_recharge, .private_coaching_recharge, .monthly_card]

/-- The non-date keys of a parsed-data dict, iterated by the has_data check of
validate_data (data.keys() minus the date key). -/
def allFieldKeys : List FieldKey :=
  [.meituan, .stored_card_redemption, .douyin, .coaching_redemption,
   .wechat, .alipay, .water, .gatorade, .other, .trial_class,
   .stored_card_recharge, .private_coaching_recharge, .monthly_card]

/-- Rendering of a numeric value inside validator messages.  Python renders
ints exactly this way; floats are rendered from the exact rational (the
properties proved below need only that the same value renders the same way). -/
def showNum : PyNum → String
  | .intV n => toString n
  | .floatV q => toString q

/-- The negative-value message of validate_numbers (src/validator.py:107). -/
def negMsg (k : FieldKey) (v : PyNum) : String :=
  "字段 " ++ keyName k ++ " 的值不能为负数: " ++ showNum v

/-- The too-large message of validate_numbers (src/validator.py:111). -/
def largeMsg (k : FieldKey) (v : PyNum) : String :=
  "字段 " ++ keyName k ++ " 的值过大: " ++ showNum v ++ " (请确认)"

/-- The all-fields-empty message of validate_data (src/validator.py:146). -/
def emptyMsg : String :=
  "所有数据字段都为空，请确认输入"

/-- The if/elif/elif chain of validate_numbers for one non-null field value.
The branch for non-numeric dict values is unrepresentable here because field
values are typed as numbers. -/
def numFieldError (k : FieldKey) (v : PyNum) : Option String :=
  if v.toRat < 0 then some (negMsg k v)
  else if 1000000 < v.toRat then some (largeMsg k v)
  else none

/-- InputValidator.validate_numbers: collect one message per offending
non-null numeric field, over numeric_fields in order; valid iff no message. -/
def validate_numbers (d : ParsedData) : Bool × List String :=
  let errors := numericFields.filterMap fun k => (d.fields k).bind (numFieldError k)
  (errors.isEmpty, errors)

/-- The shape accepted by re.match of the anchored pattern for two digits,
a dash and two digits (with the dollar anchor also accepting one trailing
newline), together with the int() values of the two parts. -/
def dateDigits : List Char → Option (Nat × Nat)
  | [a, b, '-', c, d] =>
    if isAsciiDigit a && isAsciiDigit b && isAsciiDigit c && isAsciiDigit d then
      some (digitsToNat [a, b], digitsToNat [c, d])
    else none
  | [a, b, '-', c, d, '\n'] =>
    if isAsciiDigit a && isAsciiDigit b && isAsciiDigit c && isAsciiDigit d then
      some (digitsToNat [a, b], digitsToNat [c, d])
    else none
  | _ => none

/-- InputValidator.validate_date: empty check, format check, then month and
day range checks.  The ValueError branch is unreachable once the format
matched, as in the source. -/
def validate_date (date : String) : Bool × String :=
  if date.data = [] then (false, "日期为空")
  else
    match dateDigits date.data with
    | none => (false, "日期格式错误: " ++ date ++ " (应为 MM-DD 格式)")
    | some (m, d) =>
      if ¬ (1 ≤ m ∧ m ≤ 12) then (false, "月份无效: " ++ toString m)
      else if ¬ (1 ≤ d ∧ d ≤ 31) then (false, "日期无效: " ++ toString d)
      else (true, "")

/-- InputValidator.validate_data: date error (if any), then the number
errors (if any), then the all-fields-empty message (if no field is set);
valid iff the collected list is empty. -/
def validate_data (d : ParsedData) : Bool × List String :=
  let dateRes := validate_date d.date
  let afterDate := if dateRes.1 then [] else [dateRes.2]
  let numRes := validate_numbers d
  let afterNums := afterDate ++ (if numRes.1 then [] else numRes.2)
  let has_data := allFieldKeys.any fun k => (d.fields k).isSome
  let allErrors := afterNums ++ (if has_data then [] else [emptyMsg])
  (allErrors.isEmpty, allErrors)

/-- validate_numbers with the negative-value branch deleted: used only to
state that the negative-value error is unreachable on parser-produced
records (deleting the branch does not change the result there). -/
def validate_numbers_skipNegCheck (d : ParsedData) : Bool × List String :=
  let errors := numericFields.filterMap fun k =>
    (d.fields k).bind fun v =>
      if 1000000 < v.toRat then some (largeMsg k v) else none
  (errors.isEmpty, errors)

/-! ### Ledger row engine (src/excel_handler.py) -/

/-- The state of the 每日数据 sheet as the two row-scanning operations see it:
the openpyxl max_row, and the value of each column-A cell.  Cells beyond
max_row do not exist in openpyxl, hence carry no value; dates are stored as
text strings in column A per the sheet layout. -/
structure Sheet where
  maxRow : Nat
  cellA : Nat → Option String

/-- ExcelHandler.find_next_row: scan rows 3 .. max_row+1 (Python
range(3, max_row + 2)) for the first row whose column-A cell is None; if the
scan range is empty, fall through to max_row + 1. -/
def find_next_row (s : Sheet) : Nat :=
  match (List.range' 3 (s.maxRow + 2 - 3)).find? (fun r => (s.cellA r).isNone) with
  | some r => r
  | none => s.maxRow + 1

/-- ExcelHandler.check_duplicate_date: scan rows 3 .. max_row (Python
range(3, max_row + 1)) for the first row whose column-A cell equals the date
string; None compares unequal to any string. -/
def check_duplicate_date (s : Sheet) (date : String) : Option Nat :=
  (List.range' 3 (s.maxRow + 1 - 3)).find? (fun r => s.cellA r = some date)

/-- ExcelHandler.generate_formulas: the dict of formula strings for the four
derived columns of a row, in declaration order. -/
def generate_formulas (row : Nat) : List (String × String) :=
  [("B", s!"=C{row}+D{row}+E{row}+F{row}+G{row}+H{row}"),
   ("I", s!"=J{row}+K{row}+L{row}"),
   ("Q", s!"=B{row}+I{row}+P{row}"),
   ("R", s!"=B{row}+I{row}+M{row}+N{row}+O{row}+P{row}")]

/-- The style descriptor carried by each STYLES entry: fill pattern and
color, font name, size and color, and horizontal alignment. -/
structure CellStyle where
  fillPattern : String
  fillColor : String
  fontName : String
  fontSize : Nat
  fontColor : String
  horizontal : String
deriving DecidableEq

/-- STYLES entry for column A (date). -/
def styleA : CellStyle :=
  ⟨"solid", "FFB4A7D6", "Cambria", 11, "FFFFFFFF", "center"⟩

/-- STYLES entry for column B (venue total formula). -/
def styleB : CellStyle :=
  ⟨"solid", "FF366092", "Cambria", 11, "FFFFFF00", "center"⟩

/-- STYLES entry for columns C-H (venue subcategories). -/
def styleCH : CellStyle :=
  ⟨"solid", "FF5B9BD5", "Cambria", 11, "FF000000", "center"⟩

/-- STYLES entry for column I (store total formula). -/
def styleI : CellStyle :=
  ⟨"solid", "FF366092", "Cambria", 11, "FFFFFF00", "center"⟩

/-- STYLES entry for columns J-L (store items). -/
def styleJL : CellStyle :=
  ⟨"solid", "FF5B9BD5", "Cambria", 11, "FF000000", "center"⟩

/-- STYLES entry for columns M-P (recharges). -/
def styleMP : CellStyle :=
  ⟨"solid", "FF366092", "Cambria", 11, "FFFFFF00", "center"⟩

/-- STYLES entry for columns Q-R (totals). -/
def styleQR : CellStyle :=
  ⟨"solid", "FFF4CCCC", "Cambria", 11, "FFCC0000", "center"⟩

/-- The STYLES table of ExcelHandler, in declaration order. -/
def STYLES : List (String × CellStyle) :=
  [("A", styleA), ("B", styleB), ("C-H", styleCH), ("I", styleI),
   ("J-L", styleJL), ("M-P", styleMP), ("Q-R", styleQR)]

/-- Python text.split with separator given by one dash character. -/
def splitDash : List Char → List (List Char)
  | [] => [[]]
  | c :: cs =>
    match splitDash cs with
    | [] => [[c]]
    | l :: ls => if c = '-' then [] :: l :: ls else (c :: l) :: ls

/-- Lexicographic strict comparison on character lists, as Python compares
strings by code point. -/
def lexLt : List Char → List Char → Bool
  | [], [] => false
  | [], _ :: _ => true
  | _ :: _, [] => false
  | a :: as, b :: bs => decide (a < b) || (decide (a = b) && lexLt as bs)

/-- Python string less-or-equal. -/
def lexLe (a b : List Char) : Bool :=
  lexLt a b || decide (a = b)

/-- The range-entry test of _get_style_for_column: the key contains a dash,
splits into a start and an end, and start <= col <= end as Python string
comparison. -/
def rangeContains (key col : String) : Bool :=
  key.data.contains '-' &&
    match splitDash key.data with
    | [s, e] => lexLe s col.data && lexLe col.data e
    | _ => false

/-- ExcelHandler._get_style_for_column: exact single-column entry first, then
the first matching dash-range entry in declaration order, then the C-H style
as the default fallback. -/
def get_style_for_column (col : String) : CellStyle :=
  match STYLES.find? (fun p => p.1 = col) with
  | some p => p.2
  | none =>
    match STYLES.find? (fun p => rangeContains p.1 col) with
    | some p => p.2
    | none => styleCH

/-- The 18 column letters A through R of the fixed layout. -/
def COLUMNS : List String :=
  ["A", "B", "C", "D", "E", "F", "G", "H", "I", "J", "K", "L", "M", "N", "O",
   "P", "Q", "R"]

/-! ### Example fixtures used by witnesses -/

/-- A sheet with rows 3..9 populated and max_row 9: row 10 does not
physically exist. -/
def exSheetA : Sheet :=
  ⟨9, fun r => if 3 ≤ r ∧ r ≤ 9 then some "x" else none⟩

/-- A sheet with rows 3..9 populated and max_row 10: row 10 physically
exists and is empty. -/
def exSheetB : Sheet :=
  ⟨10, fun r => if 3 ≤ r ∧ r ≤ 9 then some "x" else none⟩

/-- A sheet whose date column holds 10-28 at rows 4 and 6 among other
values. -/
def exSheetD : Sheet :=
  ⟨9, fun r =>
    if r = 4 ∨ r = 6 then some "10-28"
    else if 3 ≤ r ∧ r ≤ 9 then some "x" else none⟩

/-- A record holding one negative and one over-limit value. -/
def exBadData : ParsedData :=
  ⟨"10-28", fun k =>
    match k with
    | .meituan => some (.intV (-1))
    | .water => some (.intV 2000000)
    | _ => none⟩

/-- A record with every non-date field null. -/
def exEmptyData : ParsedData := ⟨"10-28", fun _ => none⟩

/-! ### General lemmas -/

/-- toString on a string is the identity. -/
lemma toString_str (s : String) : toString s = s := rfl

/-- find? over a contiguous range returns an in-range element satisfying the
predicate, with everything before it failing. -/
lemma find?_range'_some {p : Nat → Bool} :
    ∀ {n start r : Nat}, (List.range' start n).find? p = some r →
      start ≤ r ∧ r < start + n ∧ p r = true ∧ ∀ j, start ≤ j → j < r → p j = false := by
  intro n
  induction n with
  | zero => intro start r h; simp [List.range'] at h
  | succ n ih =>
    intro start r h
    rw [List.range'_succ] at h
    cases hp : p start with
    | true =>
      rw [List.find?_cons_of_pos _ hp] at h
      cases h
      exact ⟨le_refl _, by omega, hp, fun j h1 h2 => absurd h1 (by omega)⟩
    | false =>
      rw [List.find?_cons_of_neg _ (by simp [hp])] at h
      obtain ⟨h1, h2, h3, h4⟩ := ih h
      refine ⟨by omega, by omega, h3, fun j hj1 hj2 => ?_⟩
      rcases Nat.eq_or_lt_of_le hj1 with he | hlt
      · rw [← he]; exact hp
      · exact h4 j hlt hj2

/-- When find? over a contiguous range fails, the predicate fails on the
whole range. -/
lemma find?_range'_none {p : Nat → Bool} :
    ∀ {n start : Nat}, (List.range' start n).find? p = none →
      ∀ j, start ≤ j → j < start + n → p j = false := by
  intro n
  induction n with
  | zero => intro start _ j h1 h2; omega
  | succ n ih =>
    intro start h j h1 h2
    rw [List.range'_succ] at h
    cases hp : p start with
    | true => rw [List.find?_cons_of_pos _ hp] at h; cases h
    | false =>
      rw [List.find?_cons_of_neg _ (by simp [hp])] at h
      rcases Nat.eq_or_lt_of_le h1 with he | hlt
      · rw [← he]; exact hp
      · exact ih h j hlt (by omega)

/-- First-hit existence for findSome?: a successful search exhibits a list
element on which the function fires. -/
lemma exists_of_findSome? {α β : Type} {f : α → Option β} {l : List α} {b : β}
    (h : l.findSome? f = some b) : ∃ a, a ∈ l ∧ f a = some b := by
  induction l with
  | nil => simp [List.findSome?] at h
  | cons x xs ih =>
    rw [List.findSome?_cons] at h
    cases hf : f x with
    | some v =>
      rw [hf] at h
      simp only [] at h
      exact ⟨x, List.mem_cons_self .., by rw [hf]; exact h⟩
    | none =>
      rw [hf] at h
      simp only [] at h
      obtain ⟨a, ha, hfa⟩ := ih h
      exact ⟨a, List.mem_cons_of_mem _ ha, hfa⟩

/-- getLastD returns a list element or the default. -/
lemma getLastD_mem_or {α : Type} (xs : List α) (d : α) :
    xs.getLastD d ∈ xs ∨ xs.getLastD d = d := by
  induction xs generalizing d with
  | nil => right; rfl
  | cons a l ih =>
    rw [List.getLastD_cons]
    rcases ih a with h | h
    · exact Or.inl (List.mem_cons_of_mem _ h)
    · rw [h]; exact Or.inl (List.mem_cons_self ..)

/-- Permuted lists of length at most one are equal. -/
lemma perm_eq_of_length_le_one {α : Type} {l₁ l₂ : List α}
    (h : l₁.Perm l₂) (hl : l₂.length ≤ 1) : l₁ = l₂ := by
  cases l₂ with
  | nil => exact List.perm_nil.mp h
  | cons a t =>
    cases t with
    | nil => exact List.perm_singleton.mp h
    | cons b t2 => simp at hl

/-! ### Parser step lemmas -/

/-- The line step never changes the date. -/
lemma stepLine_date (r : ParsedData) (line : List Char) :
    (stepLine r line).date = r.date := by
  unfold stepLine
  cases lineMatch (pyStrip line) with
  | none => rfl
  | some kv => obtain ⟨k, v⟩ := kv; rfl

/-- The whole line loop never changes the date. -/
lemma foldl_stepLine_date (ls : List (List Char)) (r : ParsedData) :
    (ls.foldl stepLine r).date = r.date := by
  induction ls generalizing r with
  | nil => rfl
  | cons l ls ih => rw [List.foldl_cons, ih, stepLine_date]

/-- Unfolding the line step when some label matched. -/
lemma stepLine_match_some {line : List Char} {k : FieldKey} {v : Option PyNum}
    (r : ParsedData) (h : lineMatch (pyStrip line) = some (k, v)) :
    stepLine r line = { r with fields := Function.update r.fields k v } := by
  unfold stepLine
  rw [h]

/-- Unfolding the line step when no label matched. -/
lemma stepLine_match_none {line : List Char} (r : ParsedData)
    (h : lineMatch (pyStrip line) = none) : stepLine r line = r := by
  unfold stepLine
  rw [h]

/-- A line writes to field k the value its match produced for k. -/
lemma lineKeyVal_of_match_eq {line : List Char} {k : FieldKey} {v : Option PyNum}
    (h : lineMatch (pyStrip line) = some (k, v)) : lineKeyVal k line = some v := by
  unfold lineKeyVal
  rw [h]
  simp

/-- A line matching a different field writes nothing to field k. -/
lemma lineKeyVal_of_match_ne {line : List Char} {k k' : FieldKey} {v : Option PyNum}
    (hk : k' ≠ k) (h : lineMatch (pyStrip line) = some (k', v)) :
    lineKeyVal k line = none := by
  unfold lineKeyVal
  rw [h]
  simp [hk]

/-- A non-matching line writes nothing to field k. -/
lemma lineKeyVal_of_match_none {line : List Char} (k : FieldKey)
    (h : lineMatch (pyStrip line) = none) : lineKeyVal k line = none := by
  unfold lineKeyVal
  rw [h]

/-- The field loop computes, for each key, the value written by the last
line that matched that key, defaulting to the initial value. -/
lemma fold_fields (ls : List (List Char)) (r : ParsedData) (k : FieldKey) :
    ((ls.foldl stepLine r).fields) k = (ls.filterMap (lineKeyVal k)).getLastD (r.fields k) := by
  induction ls generalizing r with
  | nil => rfl
  | cons line ls ih =>
    rw [List.foldl_cons]
    cases h : lineMatch (pyStrip line) with
    | none =>
      rw [stepLine_match_none r h, List.filterMap_cons_none (lineKeyVal_of_match_none k h)]
      exact ih r
    | some kv =>
      obtain ⟨k', v⟩ := kv
      by_cases hk : k' = k
      · subst hk
        rw [stepLine_match_some r h, List.filterMap_cons_some (lineKeyVal_of_match_eq h),
          ih, List.getLastD_cons]
        dsimp only
        rw [Function.update_same]
      · rw [stepLine_match_some r h, List.filterMap_cons_none (lineKeyVal_of_match_ne hk h),
          ih]
        dsimp only
        rw [Function.update_noteq (fun he => hk he.symm)]

/-- Inversion of a successful parse: the text is non-blank, the date header
was found, and the record is the line fold seeded with the rendered date. -/
lemma parse_ok_inv {t : String} {r : ParsedData} (h : parse_daily_report t = .ok r) :
    pyStrip t.data ≠ [] ∧ ∃ m d, findDate t.data = some (m, d) ∧
      r = (textLines t).foldl stepLine ⟨pad2 m ++ "-" ++ pad2 d, fun _ => none⟩ := by
  unfold parse_daily_report at h
  split at h
  · cases h
  · rename_i hne
    split at h
    · cases h
    · rename_i m d hfd
      cases h
      exact ⟨hne, m, d, hfd, rfl⟩

/-- The value carried by any line match is a numeric-token parse. -/
lemma lineMatch_val {line : List Char} {k : FieldKey} {v : Option PyNum}
    (h : lineMatch line = some (k, v)) : ∃ rest, v = numToken rest := by
  unfold lineMatch at h
  obtain ⟨p, -, hfp⟩ := exists_of_findSome? h
  cases hfa : findAfter p.1.data line with
  | none => rw [hfa] at hfp; cases hfp
  | some rest =>
    rw [hfa] at hfp
    simp only [] at hfp
    injection hfp with hpair
    injection hpair with h1 h2
    exact ⟨rest.dropWhile isSep, h2.symm⟩

/-- Every numeric token parses to a non-negative value: the token grammar
admits no sign. -/
lemma numToken_nonneg {l : List Char} {v : PyNum} (h : numToken l = some v) :
    0 ≤ v.toRat := by
  unfold numToken at h
  dsimp only at h
  split at h
  · cases h
  · split at h
    · cases h
      simp only [PyNum.toRat]
      positivity
    · cases h
      simp only [PyNum.toRat]
      positivity

/-- Any message in the number errors survives into validate_data's collected
list. -/
lemma mem_numErrors_mem_validate_data {dta : ParsedData} {msg : String}
    (h : msg ∈ (validate_numbers dta).2) : msg ∈ (validate_data dta).2 := by
  have hne : (validate_numbers dta).2.isEmpty = false := by
    cases he : (validate_numbers dta).2 with
    | nil => rw [he] at h; cases h
    | cons a l => rfl
  have h1 : (validate_numbers dta).1 = (validate_numbers dta).2.isEmpty := rfl
  unfold validate_data
  dsimp only
  rw [h1, hne]
  refine List.mem_append_left _ (List.mem_append_right _ ?_)
  simpa using h

/-! ### Claim theorems: ledger row engine -/

/-- C1: for every row index r, generate_formulas returns exactly four
formulas, one per formula column B, I, Q, R, whose cell texts substitute r
for 7 in B7=C7+D7+E7+F7+G7+H7, I7=J7+K7+L7, Q7=B7+I7+P7 and
R7=B7+I7+M7+N7+O7+P7; no other column receives a formula. -/
theorem C1_generate_formulas (row : Nat) :
    generate_formulas row =
      [("B", "=C" ++ toString row ++ "+D" ++ toString row ++ "+E" ++ toString row ++
             "+F" ++ toString row ++ "+G" ++ toString row ++ "+H" ++ toString row),
       ("I", "=J" ++ toString row ++ "+K" ++ toString row ++ "+L" ++ toString row),
       ("Q", "=B" ++ toString row ++ "+I" ++ toString row ++ "+P" ++ toString row),
       ("R", "=B" ++ toString row ++ "+I" ++ toString row ++ "+M" ++ toString row ++
             "+N" ++ toString row ++ "+O" ++ toString row ++ "+P" ++ toString row)] ∧
    generate_formulas 7 =
      [("B", "=C7+D7+E7+F7+G7+H7"), ("I", "=J7+K7+L7"), ("Q", "=B7+I7+P7"),
       ("R", "=B7+I7+M7+N7+O7+P7")] ∧
    (generate_formulas row).map Prod.fst = ["B", "I", "Q", "R"] := by
  refine ⟨?_, by decide, by simp [generate_formulas]⟩
  simp [generate_formulas, String.append_assoc, toString_str, String.append_empty]

/-- Witness for C1: the concrete formulas at row 7. -/
theorem C1_generate_formulas_witness :
    generate_formulas 7 =
      [("B", "=C7+D7+E7+F7+G7+H7"), ("I", "=J7+K7+L7"), ("Q", "=B7+I7+P7"),
       ("R", "=B7+I7+M7+N7+O7+P7")] :=
  (C1_generate_formulas 7).2.1

/-- C2: under the header layout (max_row at least 2) and the openpyxl
invariant that cells beyond max_row carry no value, find_next_row returns
the smallest row index at least 3 whose column-A cell is empty; and
whenever every row from 3 through max_row is non-empty, it returns
max_row + 1, one past the last known row. -/
theorem C2_find_next_row (s : Sheet) :
    (2 ≤ s.maxRow → (∀ r, s.maxRow < r → s.cellA r = none) →
      3 ≤ find_next_row s ∧ s.cellA (find_next_row s) = none ∧
        ∀ j, 3 ≤ j → j < find_next_row s → s.cellA j ≠ none) ∧
    ((∀ r, 3 ≤ r → r ≤ s.maxRow → s.cellA r ≠ none) → find_next_row s = s.maxRow + 1) := by
  constructor
  · intro h2 wf
    have hlast : ((s.cellA (s.maxRow + 1)).isNone : Bool) = true := by
      rw [wf (s.maxRow + 1) (by omega)]; rfl
    unfold find_next_row
    cases hf : (List.range' 3 (s.maxRow + 2 - 3)).find? (fun r => (s.cellA r).isNone) with
    | none =>
      exact absurd (find?_range'_none hf (s.maxRow + 1) (by omega) (by omega)) (by simp [hlast])
    | some r =>
      obtain ⟨h1, _, h3, h4⟩ := find?_range'_some hf
      refine ⟨h1, Option.isNone_iff_eq_none.mp h3, fun j hj1 hj2 hnone => ?_⟩
      have := h4 j hj1 hj2
      rw [hnone] at this
      simp at this
  · intro hall
    unfold find_next_row
    cases hf : (List.range' 3 (s.maxRow + 2 - 3)).find? (fun r => (s.cellA r).isNone) with
    | none => rfl
    | some r =>
      obtain ⟨h1, h2, h3, _⟩ := find?_range'_some hf
      have hr : s.maxRow < r := by
        by_contra hle
        exact hall r h1 (by omega) (Option.isNone_iff_eq_none.mp h3)
      show r = s.maxRow + 1
      omega

/-- Witness for C2: with rows 3..9 populated, find_next_row returns 10 both
when max_row is 9 (row 10 does not exist) and when max_row is 10 (row 10
exists, empty); for the latter the theorem also certifies row 10 is the
first empty data row. -/
theorem C2_find_next_row_witness :
    find_next_row exSheetA = 10 ∧ find_next_row exSheetB = 10 ∧
    3 ≤ find_next_row exSheetB ∧ exSheetB.cellA (find_next_row exSheetB) = none := by
  have hA := (C2_find_next_row exSheetA).2 (by
    intro r h3 h9
    simp only [exSheetA]
    rw [if_pos ⟨h3, h9⟩]
    exact Option.some_ne_none _)
  have hB := (C2_find_next_row exSheetB).1 (by decide) (by
    intro r hr
    simp only [exSheetB] at hr ⊢
    rw [if_neg (by omega)])
  exact ⟨hA, by decide, hB.1, hB.2.1⟩

/-- C3: under the openpyxl invariant that cells beyond max_row carry no
value, check_duplicate_date returns some r exactly when r is the smallest
row index at least 3 whose column-A cell equals the date string, and none
exactly when no data-region row's column-A cell equals it. -/
theorem C3_check_duplicate_date (s : Sheet) (d : String)
    (wf : ∀ r, s.maxRow < r → s.cellA r = none) :
    (∀ r, check_duplicate_date s d = some r ↔
        (3 ≤ r ∧ s.cellA r = some d ∧ ∀ j, 3 ≤ j → j < r → s.cellA j ≠ some d)) ∧
    (check_duplicate_date s d = none ↔ ∀ r, 3 ≤ r → s.cellA r ≠ some d) := by
  have hbound : ∀ r, s.cellA r = some d → r ≤ s.maxRow := by
    intro r hr
    by_contra hlt
    rw [wf r (by omega)] at hr
    cases hr
  constructor
  · intro r
    constructor
    · intro h
      obtain ⟨h1, _, h3, h4⟩ := find?_range'_some h
      refine ⟨h1, of_decide_eq_true h3, fun j hj1 hj2 hj => ?_⟩
      have := h4 j hj1 hj2
      rw [hj] at this
      simp at this
    · rintro ⟨h1, h2, h3⟩
      have hrm : r ≤ s.maxRow := hbound r h2
      unfold check_duplicate_date
      cases hf : (List.range' 3 (s.maxRow + 1 - 3)).find? (fun j => s.cellA j = some d) with
      | none =>
        have := find?_range'_none hf r h1 (by omega)
        rw [h2] at this
        simp at this
      | some r' =>
        obtain ⟨g1, g2, g3, g4⟩ := find?_range'_some hf
        have hr' : s.cellA r' = some d := of_decide_eq_true g3
        rcases Nat.lt_trichotomy r' r with hlt | he | hgt
        · exact absurd hr' (h3 r' g1 hlt)
        · rw [he]
        · have := g4 r h1 hgt
          rw [h2] at this
          simp at this
  · constructor
    · intro h r h3 hr
      have hrm : r ≤ s.maxRow := hbound r hr
      have := find?_range'_none h r h3 (by omega)
      rw [hr] at this
      simp at this
    · intro h
      cases hf : check_duplicate_date s d with
      | none => rfl
      | some r =>
        obtain ⟨h1, _, h3, _⟩ := find?_range'_some hf
        exact absurd (of_decide_eq_true h3) (h r h1)

/-- Witness for C3: on a sheet holding 10-28 at rows 4 and 6, the duplicate
check returns row 4 (the first match); for a never-seen date it returns
none. -/
theorem C3_check_duplicate_date_witness :
    check_duplicate_date exSheetD "10-28" = some 4 ∧
    check_duplicate_date exSheetD "09-09" = none := by
  have wf : ∀ r, exSheetD.maxRow < r → exSheetD.cellA r = none := by
    intro r hr
    simp only [exSheetD] at hr ⊢
    rw [if_neg (by omega), if_neg (by omega)]
  constructor
  · refine ((C3_check_duplicate_date exSheetD "10-28" wf).1 4).mpr
      ⟨by omega, by decide, ?_⟩
    intro j h3 h4
    have : j = 3 := by omega
    rw [this]
    decide
  · refine (C3_check_duplicate_date exSheetD "09-09" wf).2.mpr ?_
    intro r _ h
    simp only [exSheetD] at h
    split at h
    · exact absurd (Option.some.inj h) (by decide)
    · split at h
      · exact absurd (Option.some.inj h) (by decide)
      · cases h

/-- C9: every column letter among A through R resolves to exactly one style
by the declared resolution order, first by an exact single-column entry,
else by the first matching declared range with inclusive lexicographic
bounds, never falling through to the default; resolution is a total
function, hence deterministic. -/
theorem C9_style_totality :
    ∀ col ∈ COLUMNS, ∃ p ∈ STYLES,
      (p.1 = col ∨ rangeContains p.1 col = true) ∧ get_style_for_column col = p.2 := by
  decide

/-- Witness for C9: column C resolves through the declared table. -/
theorem C9_style_totality_witness :
    ∃ p ∈ STYLES, (p.1 = "C" ∨ rangeContains p.1 "C" = true) ∧
      get_style_for_column "C" = p.2 :=
  C9_style_totality "C" (by decide)

/-! ### Claim theorems: parser -/

/-- C4 (amended): field extraction is order-insensitive across lines
provided each field is matched by at most one line of the text; then any
permutation of the lines that also parses yields the same value for every
non-date field.  Without that proviso the claim fails: the line loop
overwrites, so the last matching line wins (see the counterexample). -/
theorem C4_fields_perm (t t' : String) (r r' : ParsedData)
    (h : parse_daily_report t = .ok r) (h' : parse_daily_report t' = .ok r')
    (hperm : (textLines t').Perm (textLines t))
    (huniq : ∀ k, ((textLines t).filterMap (lineKeyVal k)).length ≤ 1) :
    ∀ k, r'.fields k = r.fields k := by
  intro k
  obtain ⟨-, m, d, -, rfl⟩ := parse_ok_inv h
  obtain ⟨-, m', d', -, rfl⟩ := parse_ok_inv h'
  rw [fold_fields, fold_fields]
  have hp : ((textLines t').filterMap (lineKeyVal k)).Perm
      ((textLines t).filterMap (lineKeyVal k)) := hperm.filterMap _
  rw [perm_eq_of_length_le_one hp (huniq k)]

/-- Counterexample to C4 as stated: swapping two lines that both match the
douyin label changes the parsed douyin value from 2 to 1, although the
permuted text's lines are a permutation of the original's. -/
theorem C4_order_sensitivity_counterexample :
    ∃ r r', parse_daily_report "1月1日销售日报\n抖音 1\n抖音 2" = .ok r ∧
      parse_daily_report "1月1日销售日报\n抖音 2\n抖音 1" = .ok r' ∧
      (textLines "1月1日销售日报\n抖音 2\n抖音 1").Perm
        (textLines "1月1日销售日报\n抖音 1\n抖音 2") ∧
      r.fields .douyin = some (.intV 2) ∧ r'.fields .douyin = some (.intV 1) := by
  exact ⟨_, _, rfl, rfl, by decide, by decide, by decide⟩

/-- Witness for C4: two texts whose lines are permutations of each other and
match distinct fields parse to records with identical non-date fields. -/
theorem C4_fields_perm_witness :
    ∃ r r', parse_daily_report "1月1日销售日报\n大众美团 1\n水 2" = .ok r ∧
      parse_daily_report "1月1日销售日报\n水 2\n大众美团 1" = .ok r' ∧
      ∀ k, r'.fields k = r.fields k := by
  refine ⟨_, _, rfl, rfl,
    C4_fields_perm "1月1日销售日报\n大众美团 1\n水 2" "1月1日销售日报\n水 2\n大众美团 1"
      _ _ rfl rfl (by decide) (by intro k; cases k <;> decide)⟩

/-- C5 (amended): a line consisting of a dictionary label with no trailing
numeric token matches that label with an explicit null, never zero and never
an error; and the final record's field is null whenever the last line
matching that field carried no numeric token (in particular when the bare
label line is the only one matching it).  Without the last-match proviso the
claim fails: a later line matching the same label with a number overrides
the null (see the counterexample). -/
theorem C5_bare_label_null :
    (∀ p ∈ FIELD_MAP, lineMatch p.1.data = some (p.2, none)) ∧
    ∀ (t : String) (r : ParsedData) (k : FieldKey),
      parse_daily_report t = .ok r →
      ((textLines t).filterMap (lineKeyVal k)).getLast? = some none →
      r.fields k = none := by
  constructor
  · decide
  · intro t r k h hlast
    obtain ⟨-, m, d, -, rfl⟩ := parse_ok_inv h
    rw [fold_fields, List.getLastD_eq_getLast?, hlast]
    rfl

/-- Counterexample to C5 as stated: the text contains a line that is exactly
the bare douyin label, yet the parsed douyin field is 5, not null, because a
later line matches the same label with a number. -/
theorem C5_bare_label_override_counterexample :
    ∃ r, parse_daily_report "1月1日销售日报\n抖音\n抖音 5" = .ok r ∧
      (textLines "1月1日销售日报\n抖音\n抖音 5")[1]? = some "抖音".data ∧
      ("抖音", FieldKey.douyin) ∈ FIELD_MAP ∧
      r.fields .douyin = some (.intV 5) := by
  exact ⟨_, rfl, by decide, by decide, by decide⟩

/-- Witness for C5: the bare douyin label matches with null, and a text whose
only douyin line is the bare label parses with douyin null. -/
theorem C5_bare_label_null_witness :
    lineMatch "抖音".data = some (.douyin, none) ∧
    ∃ r, parse_daily_report "1月2日销售日报\n抖音" = .ok r ∧ r.fields .douyin = none := by
  refine ⟨C5_bare_label_null.1 ("抖音", .douyin) (by decide), _, rfl,
    C5_bare_label_null.2 "1月2日销售日报\n抖音" _ .douyin rfl (by decide)⟩

/-- C6: whenever the date header is found with digit runs m and d, the parse
succeeds (on non-blank text) and sets the date to the zero-padded MM-DD
rendering of m and d, with no calendar validation; in particular
10月28日销售日报 gives 10-28 and 3月5日销售日报 gives 03-05. -/
theorem C6_date_canonicalization :
    (∀ (t : String) (m d : Nat), pyStrip t.data ≠ [] → findDate t.data = some (m, d) →
      ∃ r, parse_daily_report t = .ok r ∧ r.date = pad2 m ++ "-" ++ pad2 d) ∧
    parseDate "10月28日销售日报" = some "10-28" ∧
    parseDate "3月5日销售日报" = some "03-05" := by
  refine ⟨?_, by decide, by decide⟩
  intro t m d hne hfd
  refine ⟨(textLines t).foldl stepLine ⟨pad2 m ++ "-" ++ pad2 d, fun _ => none⟩, ?_, ?_⟩
  · unfold parse_daily_report
    rw [if_neg hne, hfd]
  · rw [foldl_stepLine_date]

/-- Witness for C6: the calendar-invalid header 13月40日销售日报 still parses,
to date 13-40, exhibiting the absence of calendar validation. -/
theorem C6_date_canonicalization_witness :
    (pyStrip ("13月40日销售日报").data ≠ [] ∧
      findDate ("13月40日销售日报").data = some (13, 40)) ∧
    ∃ r, parse_daily_report "13月40日销售日报" = .ok r ∧
      r.date = pad2 13 ++ "-" ++ pad2 40 := by
  exact ⟨⟨by decide, by decide⟩,
    C6_date_canonicalization.1 "13月40日销售日报" 13 40 (by decide) (by decide)⟩

/-- C7: parse fails with the empty-input error exactly when the text strips
to nothing, fails with the missing-date error exactly when the text is
non-blank but contains no date-header match, and succeeds on every other
input; the empty-input check runs first. -/
theorem C7_parse_errors (t : String) :
    (parse_daily_report t = .error .emptyInput ↔ pyStrip t.data = []) ∧
    (parse_daily_report t = .error .missingDate ↔
      (pyStrip t.data ≠ [] ∧ findDate t.data = none)) ∧
    ((pyStrip t.data ≠ [] ∧ findDate t.data ≠ none) → ∃ r, parse_daily_report t = .ok r) := by
  by_cases hs : pyStrip t.data = []
  · refine ⟨?_, ?_, ?_⟩
    · simp [parse_daily_report, hs]
    · simp [parse_daily_report, hs]
    · rintro ⟨h1, -⟩
      exact absurd hs h1
  · cases hfd : findDate t.data with
    | none =>
      refine ⟨?_, ?_, ?_⟩
      · simp [parse_daily_report, hs, hfd]
      · simp [parse_daily_report, hs, hfd]
      · rintro ⟨-, h2⟩
        exact absurd rfl h2
    | some md =>
      obtain ⟨m, d⟩ := md
      refine ⟨?_, ?_, fun _ =>
        ⟨(textLines t).foldl stepLine ⟨pad2 m ++ "-" ++ pad2 d, fun _ => none⟩, ?_⟩⟩
      · simp [parse_daily_report, hs, hfd]
      · simp [parse_daily_report, hs, hfd]
      · unfold parse_daily_report
        rw [if_neg hs, hfd]

/-- Witness for C7: the three regimes at concrete inputs. -/
theorem C7_parse_errors_witness :
    parse_daily_report "" = .error .emptyInput ∧
    parse_daily_report "你好" = .error .missingDate ∧
    ∃ r, parse_daily_report "1月1日销售日报" = .ok r := by
  exact ⟨(C7_parse_errors "").1.mpr (by decide),
    (C7_parse_errors "你好").2.1.mpr ⟨by decide, by decide⟩,
    (C7_parse_errors "1月1日销售日报").2.2 ⟨by decide, by decide⟩⟩

/-! ### Claim theorems: validator -/

/-- C8: validate_data collects all applicable errors rather than
short-circuiting: each non-null negative field contributes its
negative-value message, each non-null over-one-million field contributes
its distinct too-large message, an all-null record contributes the
all-fields-empty message, all in the one returned list, and the record is
valid exactly when the list is empty. -/
theorem C8_validate_data (dta : ParsedData) :
    ((validate_data dta).1 = true ↔ (validate_data dta).2 = []) ∧
    (∀ k ∈ numericFields, ∀ v, dta.fields k = some v → v.toRat < 0 →
      negMsg k v ∈ (validate_data dta).2) ∧
    (∀ k ∈ numericFields, ∀ v, dta.fields k = some v → 1000000 < v.toRat →
      largeMsg k v ∈ (validate_data dta).2) ∧
    (∀ k v, negMsg k v ≠ largeMsg k v) ∧
    ((∀ k, dta.fields k = none) → emptyMsg ∈ (validate_data dta).2) := by
  refine ⟨?_, ?_, ?_, ?_, ?_⟩
  · have h : (validate_data dta).1 = (validate_data dta).2.isEmpty := rfl
    rw [h, List.isEmpty_iff]
  · intro k hk v hv hneg
    apply mem_numErrors_mem_validate_data
    refine List.mem_filterMap.mpr ⟨k, hk, ?_⟩
    rw [hv]
    show numFieldError k v = some (negMsg k v)
    unfold numFieldError
    rw [if_pos hneg]
  · intro k hk v hv hlarge
    have hnn : ¬ v.toRat < 0 := by
      intro hneg
      have : (0 : ℚ) < 0 := lt_trans (lt_trans (by norm_num) hlarge) hneg
      exact lt_irrefl _ this
    apply mem_numErrors_mem_validate_data
    refine List.mem_filterMap.mpr ⟨k, hk, ?_⟩
    rw [hv]
    show numFieldError k v = some (largeMsg k v)
    unfold numFieldError
    rw [if_neg hnn, if_pos hlarge]
  · intro k v heq
    have h1 := congrArg String.length heq
    rw [negMsg, largeMsg] at h1
    simp only [String.length_append] at h1
    have e1 : ("字段 " : String).length = 3 := rfl
    have e2 : (" 的值不能为负数: " : String).length = 10 := rfl
    have e3 : (" 的值过大: " : String).length = 7 := rfl
    have e4 : (" (请确认)" : String).length = 6 := rfl
    rw [e1, e2, e3, e4] at h1
    omega
  · intro hall
    unfold validate_data
    dsimp only
    have hhas : (allFieldKeys.any fun k => (dta.fields k).isSome) = false := by
      rw [List.any_eq_false]
      intro k _
      rw [hall k]
      simp
    rw [hhas]
    refine List.mem_append_right _ ?_
    simp

/-- Witness for C8: the negative and too-large messages both appear for a
record carrying meituan -1 and water 2000000; the two message shapes are
distinct; the all-empty record yields the all-fields-empty message. -/
theorem C8_validate_data_witness :
    negMsg .meituan (.intV (-1)) ∈ (validate_data exBadData).2 ∧
    largeMsg .water (.intV 2000000) ∈ (validate_data exBadData).2 ∧
    negMsg .meituan (.intV (-1)) ≠ largeMsg .meituan (.intV (-1)) ∧
    emptyMsg ∈ (validate_data exEmptyData).2 ∧
    ((validate_data exBadData).1 = true ↔ (validate_data exBadData).2 = []) := by
  refine ⟨(C8_validate_data exBadData).2.1 .meituan (by decide) _ rfl (by decide),
    (C8_validate_data exBadData).2.2.1 .water (by decide) _ rfl (by decide),
    (C8_validate_data exBadData).2.2.2.1 .meituan (.intV (-1)),
    (C8_validate_data exEmptyData).2.2.2.2 (fun k => rfl),
    (C8_validate_data exBadData).1⟩

/-- C10: every non-null field of a successfully parsed record is
non-negative, since the numeric-token grammar admits no sign; consequently
the validator's negative-value branch is unreachable on parser output:
deleting it does not change validate_numbers there. -/
theorem C10_parser_nonneg (t : String) (r : ParsedData)
    (h : parse_daily_report t = .ok r) :
    (∀ k v, r.fields k = some v → 0 ≤ v.toRat) ∧
    validate_numbers_skipNegCheck r = validate_numbers r := by
  have hnn : ∀ k v, r.fields k = some v → 0 ≤ v.toRat := by
    intro k v hv
    obtain ⟨-, m, d, -, hr⟩ := parse_ok_inv h
    rw [hr, fold_fields] at hv
    rcases getLastD_mem_or ((textLines t).filterMap (lineKeyVal k)) _ with hm | hd
    · rw [hv] at hm
      obtain ⟨line, -, hl⟩ := List.mem_filterMap.mp hm
      unfold lineKeyVal at hl
      cases hlm : lineMatch (pyStrip line) with
      | none => rw [hlm] at hl; cases hl
      | some kv =>
        obtain ⟨k', v'⟩ := kv
        rw [hlm] at hl
        simp only [] at hl
        by_cases hk : k' = k
        · rw [if_pos hk] at hl
          obtain ⟨rest, hrest⟩ := lineMatch_val hlm
          have hvv : v' = some v := Option.some.inj hl
          rw [hvv] at hrest
          exact numToken_nonneg hrest.symm
        · rw [if_neg hk] at hl; cases hl
    · rw [hv] at hd
      simp at hd
  refine ⟨hnn, ?_⟩
  have hE : (numericFields.filterMap fun k => (r.fields k).bind fun v =>
        if 1000000 < v.toRat then some (largeMsg k v) else none)
      = numericFields.filterMap fun k => (r.fields k).bind (numFieldError k) := by
    apply List.filterMap_congr
    intro k _
    cases hv : r.fields k with
    | none => rfl
    | some v =>
      show (if 1000000 < v.toRat then some (largeMsg k v) else none) = numFieldError k v
      unfold numFieldError
      rw [if_neg (not_lt.mpr (hnn k v hv))]
  unfold validate_numbers_skipNegCheck validate_numbers
  dsimp only
  rw [hE]

/-- Witness for C10: a parsed record with an int and a float field is
non-negative throughout, and the neg-check-free validator agrees with the
full one on it. -/
theorem C10_parser_nonneg_witness :
    ∃ r, parse_daily_report "10月28日销售日报\n大众美团 144\n抖音 1.5" = .ok r ∧
      (∀ k v, r.fields k = some v → 0 ≤ v.toRat) ∧
      validate_numbers_skipNegCheck r = validate_numbers r := by
  exact ⟨_, rfl, C10_parser_nonneg "10月28日销售日报\n大众美团 144\n抖音 1.5" _ rfl⟩

end Finance
